import Mathlib

/-!
# Verification of the pollution-exposure-viz core pipeline

Shallow embedding of the core analytic routines of the repository:

* `geotiff_processor.py`: `count_pixels_by_order_of_magnitude`,
  `compute_person_exposure_raster`, the spatial-alignment check of
  `process_asset_pair`, and `calculate_exposure_distribution_stats`;
* `edge_pattern_analyzer.py`: `detect_edge_patterns` and the
  `suspicious_patterns` aggregation of `analyze_concentration_file`.

Floating-point samples read from GeoTIFF files may be NaN or ±Inf, and the
cleaning / filtering code branches on `np.isfinite` and on sign, so raster
cells are modelled by `FVal`: either a special value or a finite rational.
Exact rational arithmetic stands in for finite-float arithmetic (rounding
and overflow of IEEE doubles are abstracted away); NaN/Inf comparison
semantics (`NaN >= 0` is false, `Inf >= 0` is true) are modelled exactly.
-/

namespace PollutionViz

/-- Model of one floating-point raster sample: NaN, +Inf, -Inf, or a finite
value (an exact rational standing in for a finite double). -/
inductive FVal where
  | nan : FVal
  | inf : FVal
  | ninf : FVal
  | fin : ℚ → FVal
deriving DecidableEq, Repr

/-- Models `np.isfinite`: true exactly on finite values. -/
def FVal.isFinite : FVal → Bool
  | .fin _ => true
  | _ => false

/-- The IEEE comparison `v >= 0`: false on NaN (all comparisons with NaN are
false), true on +Inf, false on -Inf, and the rational comparison otherwise. -/
def FVal.nonneg : FVal → Bool
  | .nan => false
  | .inf => true
  | .ninf => false
  | .fin q => decide (0 ≤ q)

/-- The finite payload of a sample (junk value 0 on specials; only ever used
after filtering on `isFinite`). -/
def FVal.toQ : FVal → ℚ
  | .fin q => q
  | _ => 0

/-- A raster is a 2D grid of samples, row-major (as `rasterio` reads band 1). -/
abbrev Raster := List (List FVal)

/-- All cells of a raster in row-major order (numpy boolean-mask indexing
flattens row-major). -/
def Raster.cells (data : Raster) : List FVal := data.flatten

/-! ## `count_pixels_by_order_of_magnitude` (geotiff_processor.py lines 46-80) -/

/-- The fixed order-of-magnitude ranges, as the `ranges` table of the source:
label, lower bound, and upper bound (`none` standing for `np.inf`). -/
def ranges : List (String × ℚ × Option ℚ) :=
  [("0", 0, some 0),
   ("0.001-0.01", 1/1000, some (1/100)),
   ("0.01-0.1", 1/100, some (1/10)),
   ("0.1-1", 1/10, some 1),
   ("1-10", 1, some 10),
   ("10-100", 10, some 100),
   ("100-1000", 100, some 1000),
   ("1000-10000", 1000, some 10000),
   ("10000+", 10000, none)]

/-- Count of entries of `l` in `[lo, hi)`, resp. `[lo, ∞)` when `hi = none` --
the two `np.sum` branches of the bucket loop. -/
def rangeCount (l : List ℚ) (lo : ℚ) : Option ℚ → ℕ
  | some hi => l.countP (fun v => decide (lo ≤ v ∧ v < hi))
  | none => l.countP (fun v => decide (lo ≤ v))

/-- Models `np.isfinite(data) & (data >= 0)`: the cell survives the validity mask. -/
def validCell (v : FVal) : Bool := v.isFinite && v.nonneg

/-- The source's `valid_data = data[np.isfinite(data) & (data >= 0)]`:
the finite non-negative samples, as rationals, in row-major order. -/
def validData (data : Raster) : List ℚ :=
  ((Raster.cells data).filter validCell).map FVal.toQ

/-- The source's `non_zero_data = valid_data[valid_data > 0]`. -/
def nonZeroData (data : Raster) : List ℚ :=
  (validData data).filter (fun q => decide (0 < q))

/-- Embeds `count_pixels_by_order_of_magnitude`: drop non-finite and negative cells,
count exact zeros separately, then count the strictly-positive values in each
of the eight labeled ranges (the last unbounded above).  The result is the
label→count mapping built in table order. -/
def count_pixels_by_order_of_magnitude (data : Raster) : List (String × ℕ) :=
  ("0", (validData data).countP (fun q => decide (q = 0))) ::
    (ranges.drop 1).map (fun r => (r.1, rangeCount (nonZeroData data) r.2.1 r.2.2))

/-- Membership of a cell in the labeled range `[lo, hi)` (`[lo, ∞)` when
`hi = none`): the cell is finite and its value lies in the range.  Every
range's lower bound is at least 0.001, so membership forces strict
positivity. -/
def inBucket (lo : ℚ) (hi : Option ℚ) (v : FVal) : Bool :=
  v.isFinite && decide (lo ≤ v.toQ) &&
    (match hi with
     | some h => decide (v.toQ < h)
     | none => true)

/-- The nine bucket labels in table order. -/
def allLabels : List String :=
  ["0", "0.001-0.01", "0.01-0.1", "0.1-1", "1-10", "10-100", "100-1000",
   "1000-10000", "10000+"]

/-- Sum of all bucket counts of a histogram. -/
def sumCounts (counts : List (String × ℕ)) : ℕ := (counts.map Prod.snd).sum

/-! ## `compute_person_exposure_raster` (geotiff_processor.py lines 94-125) -/

/-- One cell of `np.where(np.isfinite(x) & (x >= 0), x, 0)`: a non-finite or
negative sample is replaced by zero; a finite non-negative sample is kept.
`np.where` builds a fresh array, so the source raster is not mutated; in this
pure embedding immutability is implicit. -/
def cleanVal (v : FVal) : FVal := if v.isFinite && v.nonneg then v else .fin 0

/-- The finite rational a cell contributes after cleaning. -/
def cleanQ (v : FVal) : ℚ := if v.isFinite && v.nonneg then v.toQ else 0

/-- IEEE-754 multiplication on the sample model: NaN propagates, ±Inf times a
non-zero value carries the sign product, ±Inf times zero is NaN, and finite
values multiply exactly (float rounding/overflow abstracted to ℚ). -/
def FVal.mul : FVal → FVal → FVal
  | .nan, _ => .nan
  | .inf, .nan => .nan
  | .ninf, .nan => .nan
  | .fin _, .nan => .nan
  | .inf, .inf => .inf
  | .inf, .ninf => .ninf
  | .inf, .fin q => if 0 < q then .inf else if q < 0 then .ninf else .nan
  | .ninf, .inf => .ninf
  | .ninf, .ninf => .inf
  | .ninf, .fin q => if 0 < q then .ninf else if q < 0 then .inf else .nan
  | .fin q, .inf => if 0 < q then .inf else if q < 0 then .ninf else .nan
  | .fin q, .ninf => if 0 < q then .ninf else if q < 0 then .inf else .nan
  | .fin a, .fin b => .fin (a * b)

/-- Sum of a list of rationals (`np.sum`). -/
def listSum (l : List ℚ) : ℚ := l.sum

/-- Models `np.mean` over a non-empty list (division by zero never reached through
the guarded call sites). -/
def listMean (l : List ℚ) : ℚ := l.sum / l.length

/-- Models `np.max` over a non-empty list (junk 0 on `[]`, where numpy raises). -/
def listMax : List ℚ → ℚ
  | [] => 0
  | h :: t => t.foldl Max.max h

/-- Models `np.min` over a non-empty list (junk 0 on `[]`, where numpy raises). -/
def listMin : List ℚ → ℚ
  | [] => 0
  | h :: t => t.foldl Min.min h

/-- Population variance, `np.mean((x - x.mean())**2)`. -/
def listVariance (l : List ℚ) : ℚ :=
  (l.map (fun x => (x - listMean l) ^ 2)).sum / l.length

/-- Models `np.std`: the square root of the population variance. -/
noncomputable def listStd (l : List ℚ) : ℝ := Real.sqrt (listVariance l)

/-- The record built at lines 115-123 of `geotiff_processor.py` (keys of the
`exposure_stats` dict; `std` is modelled exactly as `Real.sqrt` of the
population variance). -/
structure ExposureStats where
  total_person_exposure : ℚ
  mean_person_exposure : ℚ
  max_person_exposure : ℚ
  min_person_exposure : ℚ
  std_person_exposure : ℝ
  non_zero_pixels : ℕ
  non_zero_mean : ℚ

/-- Embeds `compute_person_exposure_raster`: clean both inputs cell by cell, multiply
them element-wise, and compute the statistics of the product raster.  `none`
in the second component models the numpy empty-reduction failure of
`np.max`/`np.min` on a 0-cell raster; every raster read from a GeoTIFF file
is non-empty, so that branch is never taken in the pipeline. -/
noncomputable def compute_person_exposure_raster (conc_data pop_data : Raster) :
    Raster × Option ExposureStats :=
  let conc_clean := conc_data.map (fun row => row.map cleanVal)
  let pop_clean := pop_data.map (fun row => row.map cleanVal)
  let person_exposure_raster := List.zipWith (List.zipWith FVal.mul) conc_clean pop_clean
  let cells := (Raster.cells person_exposure_raster).map FVal.toQ
  let valid_exposure := cells.filter (fun q => decide (0 < q))
  (person_exposure_raster,
    if cells.isEmpty then none else
    some
      { total_person_exposure := listSum cells
        mean_person_exposure := listMean cells
        max_person_exposure := listMax cells
        min_person_exposure := listMin cells
        std_person_exposure := listStd cells
        non_zero_pixels := valid_exposure.length
        non_zero_mean := if valid_exposure.length > 0 then listMean valid_exposure else 0 })

/-- Cells counted by the tail of the bucket table from `lo` on: finite with
value at least `lo`. -/
def fromBucket (lo : ℚ) (v : FVal) : Bool := v.isFinite && decide (lo ≤ v.toQ)

/-- The classification scenario input `[0, 0.0005, 0.005, 50, 50000]` as a
one-row raster. -/
def scenarioRaster : Raster :=
  [[FVal.fin 0, FVal.fin (1/2000), FVal.fin (1/200), FVal.fin 50, FVal.fin 50000]]

/-- The flattened cell values of the computed exposure raster (the list the
source's statistics are reductions of). -/
noncomputable def exposureQ (conc pop : Raster) : List ℚ :=
  (Raster.cells (compute_person_exposure_raster conc pop).1).map FVal.toQ

/-! ## The spatial-alignment gate of `process_asset_pair`
(geotiff_processor.py lines 270-283).  The filename/asset-id checks of lines
244-252 and the file I/O around them are orchestration; the embedding starts
from the two loaded rasters with their geotransforms. -/

/-- A geotransform: the six affine coefficients of the pixel→geographic map,
compared coefficient-wise for exact equality (as rasterio `Affine.__eq__`). -/
structure Affine where
  a : ℚ
  b : ℚ
  c : ℚ
  d : ℚ
  e : ℚ
  f : ℚ
deriving DecidableEq, Repr

/-- A loaded raster with its geotransform. -/
structure GeoRaster where
  transform : Affine
  data : Raster

/-- Models `src.shape`: the pair (rows, cols). -/
def Raster.shape (data : Raster) : ℕ × ℕ := (data.length, (data.getD 0 []).length)

/-- The per-asset fatal error of the pipeline: the `ValueError` raised at line
272 for spatially misaligned pairs (the spec's `AlignmentError`). -/
inductive PipelineError where
  | alignmentError : PipelineError
deriving DecidableEq, Repr

/-- The analytic core of `process_asset_pair` after both rasters are loaded:
raise `AlignmentError` unless transform and shape match exactly, otherwise
compute the exposure raster and statistics.  The exposure arithmetic sits
only in the aligned branch, so a misaligned pair reaches no arithmetic. -/
noncomputable def process_asset_pair (conc pop : GeoRaster) :
    Except PipelineError (Raster × Option ExposureStats) :=
  if conc.transform = pop.transform ∧ Raster.shape conc.data = Raster.shape pop.data then
    Except.ok (compute_person_exposure_raster conc.data pop.data)
  else
    Except.error PipelineError.alignmentError

/-! ## `detect_edge_patterns` (edge_pattern_analyzer.py lines 14-75) and the
`suspicious_patterns` aggregate (lines 136-141).

Cells here are rationals: the code only compares cells against the threshold
with `<=`, and every claim about this routine is about that ordering. -/

/-- Models `np.all(data[i, :] <= threshold)`: the row counts as "zero". -/
def rowIsZero (threshold : ℚ) (row : List ℚ) : Bool :=
  row.all (fun x => decide (x ≤ threshold))

/-- The `for ... if ... else break` loops of lines 40-65: the number of
consecutive leading rows that are entirely ≤ threshold, stopping at the first
row that is not. -/
def countLeadingZero (threshold : ℚ) : List (List ℚ) → ℕ
  | [] => 0
  | row :: rest =>
      if rowIsZero threshold row then countLeadingZero threshold rest + 1 else 0

/-- The columns `data[:, j]` for `j = 0 .. cols-1` (junk 0 beyond a ragged
row; exact on rectangular data). -/
def columnsOf (data : List (List ℚ)) : List (List ℚ) :=
  (List.range (data.getD 0 []).length).map (fun j => data.map (fun row => row.getD j 0))

/-- The `patterns` dict of `detect_edge_patterns`. -/
structure EdgePatterns where
  top_zero_rows : ℕ
  bottom_zero_rows : ℕ
  left_zero_cols : ℕ
  right_zero_cols : ℕ
  top_zero_stripe : Bool
  bottom_zero_stripe : Bool
  left_zero_stripe : Bool
  right_zero_stripe : Bool
deriving DecidableEq, Repr

/-- Embeds `detect_edge_patterns`: contiguous zero rows/columns from each edge, and
the per-edge stripe flags (`count > max(10, min(rows, cols) * 0.01)`). -/
def detect_edge_patterns (data : List (List ℚ)) (threshold : ℚ) : EdgePatterns :=
  let rows := data.length
  let cols := (data.getD 0 []).length
  let top := countLeadingZero threshold data
  let bottom := countLeadingZero threshold data.reverse
  let leftc := countLeadingZero threshold (columnsOf data)
  let rightc := countLeadingZero threshold (columnsOf data).reverse
  let min_stripe_threshold : ℚ := max 10 ((min rows cols : ℚ) * (1 / 100))
  { top_zero_rows := top
    bottom_zero_rows := bottom
    left_zero_cols := leftc
    right_zero_cols := rightc
    top_zero_stripe := decide (min_stripe_threshold < (top : ℚ))
    bottom_zero_stripe := decide (min_stripe_threshold < (bottom : ℚ))
    left_zero_stripe := decide (min_stripe_threshold < (leftc : ℚ))
    right_zero_stripe := decide (min_stripe_threshold < (rightc : ℚ)) }

/-- The `suspicious_patterns` flag of `analyze_concentration_file` (lines
136-141): the OR of the four stripe flags, with the detector called at its
default threshold 0. -/
def suspicious_patterns (data : List (List ℚ)) : Bool :=
  let ep := detect_edge_patterns data 0
  ep.top_zero_stripe || ep.bottom_zero_stripe ||
    ep.left_zero_stripe || ep.right_zero_stripe

/-- The raster is rectangular: every row has the width reported by
`Raster.shape` (numpy 2D arrays always are). -/
def rectangular (data : List (List ℚ)) : Prop :=
  ∀ row ∈ data, row.length = (data.getD 0 []).length

/-! ## `calculate_exposure_distribution_stats` (geotiff_processor.py lines
328-379). -/

/-- One entry of `asset_results` as the aggregator reads it: `none` when the
record has no `person_exposure_stats` key, otherwise the pair
(`max_person_exposure`, `total_person_exposure`). -/
abbrev AssetRecord := Option (ℚ × ℚ)

/-- The `max_exposures` list built by the extraction loop (lines 333-341). -/
def maxExposures (assets : List AssetRecord) : List ℚ :=
  assets.filterMap (fun a => a.map Prod.fst)

/-- The `total_exposures` list built by the extraction loop. -/
def totalExposures (assets : List AssetRecord) : List ℚ :=
  assets.filterMap (fun a => a.map Prod.snd)

/-- Models `np.mean(np.log(l))`: the mean of the natural logs. -/
noncomputable def logMean (l : List ℚ) : ℝ :=
  ((l.map (fun (q : ℚ) => Real.log (q : ℝ))).sum) / l.length

/-- The list sorted ascending, as `np.percentile` sorts its input. -/
def sortedAsc (l : List ℚ) : List ℚ := l.mergeSort (fun a b => decide (a ≤ b))

/-- Models `np.percentile(l, p)` with the default linear-interpolation method:
virtual rank `h = (n-1)·p/100`, interpolating between the floor and ceiling
order statistics. -/
def percentileQ (l : List ℚ) (p : ℚ) : ℚ :=
  let s := sortedAsc l
  let h : ℚ := ((l.length : ℚ) - 1) * p / 100
  let k : ℕ := (⌊h⌋).toNat
  let lower := s.getD k 0
  let upper := s.getD (k + 1) lower
  lower + (h - (k : ℚ)) * (upper - lower)

/-- Models `np.median`: the average of the two middle order statistics, which equals
the linearly-interpolated 50th percentile. -/
def medianQ (l : List ℚ) : ℚ := percentileQ l 50

/-- The `max_person_exposure_stats` sub-dict (lines 355-366). -/
structure MaxExposureDist where
  count : ℕ
  min : ℚ
  max : ℚ
  mean : ℚ
  median : ℚ
  std : ℝ
  geometric_mean : ℝ
  percentile_90 : ℚ
  percentile_95 : ℚ
  percentile_99 : ℚ

/-- The `total_person_exposure_stats` sub-dict (lines 367-376). -/
structure TotalExposureDist where
  count : ℕ
  min : ℚ
  max : ℚ
  mean : ℚ
  median : ℚ
  std : ℝ
  geometric_mean : ℝ
  sum_all_assets : ℚ

/-- Embeds `calculate_exposure_distribution_stats`: extract the per-asset max and
total exposures (skipping records without stats), return the empty summary
`{}` (modelled `none`) when nothing was extracted, otherwise both rollups.
The geometric means are `exp(mean(log v))` over the strictly-positive values
only, `0.0` when there are none. -/
noncomputable def calculate_exposure_distribution_stats (assets : List AssetRecord) :
    Option (MaxExposureDist × TotalExposureDist) :=
  let max_exposures := maxExposures assets
  let total_exposures := totalExposures assets
  if max_exposures.isEmpty then none
  else
    let non_zero_max := max_exposures.filter (fun q => decide (0 < q))
    let non_zero_total := total_exposures.filter (fun q => decide (0 < q))
    some
      ({ count := max_exposures.length
         min := listMin max_exposures
         max := listMax max_exposures
         mean := listMean max_exposures
         median := medianQ max_exposures
         std := listStd max_exposures
         geometric_mean :=
           if non_zero_max.isEmpty then 0 else Real.exp (logMean non_zero_max)
         percentile_90 := percentileQ max_exposures 90
         percentile_95 := percentileQ max_exposures 95
         percentile_99 := percentileQ max_exposures 99 },
       { count := total_exposures.length
         min := listMin total_exposures
         max := listMax total_exposures
         mean := listMean total_exposures
         median := medianQ total_exposures
         std := listStd total_exposures
         geometric_mean :=
           if non_zero_total.isEmpty then 0 else Real.exp (logMean non_zero_total)
         sum_all_assets := listSum total_exposures })



theorem validData_countP (data : Raster) (p : ℚ → Bool) :
    (validData data).countP p =
      (Raster.cells data).countP (fun v => validCell v && p v.toQ) := by
  unfold validData
  rw [List.countP_map, List.countP_filter]
  refine List.countP_congr (fun v _ => ?_)
  cases v <;> simp [validCell, FVal.isFinite, FVal.nonneg, Function.comp] <;> tauto

theorem nonZeroData_countP (data : Raster) (p : ℚ → Bool) :
    (nonZeroData data).countP p =
      (Raster.cells data).countP (fun v => validCell v && decide (0 < v.toQ) && p v.toQ) := by
  unfold nonZeroData
  rw [List.countP_filter, validData_countP]
  refine List.countP_congr (fun v _ => ?_)
  cases v <;> simp [validCell, FVal.isFinite, FVal.nonneg, FVal.toQ] <;> tauto

theorem zero_bucket_count (data : Raster) :
    (validData data).countP (fun q => decide (q = 0)) =
      (Raster.cells data).countP (fun v => decide (v = FVal.fin 0)) := by
  rw [validData_countP]
  refine List.countP_congr (fun v _ => ?_)
  cases v <;> simp [validCell, FVal.isFinite, FVal.nonneg, FVal.toQ]
  intro h
  simp [h]

theorem bucket_rangeCount_some (data : Raster) (lo h : ℚ) (hlo : 0 < lo) :
    rangeCount (nonZeroData data) lo (some h) =
      (Raster.cells data).countP (inBucket lo (some h)) := by
  rw [rangeCount, nonZeroData_countP]
  refine List.countP_congr (fun v _ => ?_)
  cases v <;> simp [validCell, inBucket, FVal.isFinite, FVal.nonneg, FVal.toQ]
  intro h1 h2
  constructor <;> linarith

theorem bucket_rangeCount_none (data : Raster) (lo : ℚ) (hlo : 0 < lo) :
    rangeCount (nonZeroData data) lo none =
      (Raster.cells data).countP (inBucket lo none) := by
  rw [rangeCount, nonZeroData_countP]
  refine List.countP_congr (fun v _ => ?_)
  cases v <;> simp [validCell, inBucket, FVal.isFinite, FVal.nonneg, FVal.toQ]
  intro h1
  exact ⟨by linarith, by linarith⟩

theorem count_pixels_closed (data : Raster) :
    count_pixels_by_order_of_magnitude data =
      ("0", (Raster.cells data).countP (fun v => decide (v = FVal.fin 0))) ::
        (ranges.drop 1).map (fun r =>
          (r.1, (Raster.cells data).countP (inBucket r.2.1 r.2.2))) := by
  rw [count_pixels_by_order_of_magnitude, zero_bucket_count]
  simp only [ranges, List.drop, List.map, List.cons.injEq, Prod.mk.injEq, true_and, and_true]
  exact ⟨bucket_rangeCount_some data (1/1000) (1/100) (by norm_num),
    bucket_rangeCount_some data (1/100) (1/10) (by norm_num),
    bucket_rangeCount_some data (1/10) 1 (by norm_num),
    bucket_rangeCount_some data 1 10 (by norm_num),
    bucket_rangeCount_some data 10 100 (by norm_num),
    bucket_rangeCount_some data 100 1000 (by norm_num),
    bucket_rangeCount_some data 1000 10000 (by norm_num),
    bucket_rangeCount_none data 10000 (by norm_num)⟩

theorem countP_or_disjoint {α : Type} (p q : α → Bool) (l : List α)
    (h : ∀ a ∈ l, ¬(p a = true ∧ q a = true)) :
    l.countP (fun a => p a || q a) = l.countP p + l.countP q := by
  induction l with
  | nil => simp
  | cons a t ih =>
      simp only [List.countP_cons]
      rw [ih (fun b hb => h b (List.mem_cons_of_mem a hb))]
      have ha := h a (List.mem_cons_self a t)
      cases hp : p a <;> cases hq : q a <;> simp_all <;> omega

theorem fromBucket_split (lo hi : ℚ) (hlohi : lo < hi) (l : List FVal) :
    l.countP (fromBucket lo) =
      l.countP (inBucket lo (some hi)) + l.countP (fromBucket hi) := by
  rw [← countP_or_disjoint _ _ l ?disj]
  case disj =>
    rintro v _ ⟨hb, ht⟩
    cases v <;> simp [inBucket, fromBucket, FVal.isFinite, FVal.toQ] at hb ht
    linarith [hb.2]
  refine List.countP_congr (fun v _ => ?_)
  cases v <;> simp [inBucket, fromBucket, FVal.isFinite, FVal.toQ]
  constructor
  · intro h1
    rcases lt_or_le _ hi with h2 | h2
    · exact Or.inl ⟨h1, h2⟩
    · exact Or.inr h2
  · rintro (⟨h1, h2⟩ | h1)
    · exact h1
    · linarith

theorem zero_fromBucket_split (l : List FVal) :
    l.countP (fun v => validCell v &&
        (decide (v.toQ = 0) || decide ((1:ℚ)/1000 ≤ v.toQ))) =
      l.countP (fun v => decide (v = FVal.fin 0)) +
        l.countP (fromBucket (1/1000)) := by
  rw [← countP_or_disjoint _ _ l ?disj]
  case disj =>
    rintro v _ ⟨hb, ht⟩
    cases v <;> simp [fromBucket, FVal.isFinite, FVal.toQ] at hb ht
    subst hb
    linarith
  refine List.countP_congr (fun v _ => ?_)
  cases v <;> simp [validCell, fromBucket, FVal.isFinite, FVal.nonneg, FVal.toQ]
  rintro (rfl | h1)
  · exact le_refl 0
  · linarith

theorem final_bucket_eq (l : List FVal) :
    l.countP (fromBucket 10000) = l.countP (inBucket 10000 none) := by
  refine List.countP_congr (fun v _ => ?_)
  cases v <;> simp [fromBucket, inBucket]

theorem sumCounts_eq (data : Raster) :
    sumCounts (count_pixels_by_order_of_magnitude data) =
      (Raster.cells data).countP (fun v => validCell v &&
        (decide (v.toQ = 0) || decide ((1:ℚ)/1000 ≤ v.toQ))) := by
  rw [count_pixels_closed]
  simp only [sumCounts, ranges, List.drop, List.map, List.map_cons, List.map_nil,
    List.sum_cons, List.sum_nil, add_zero]
  rw [zero_fromBucket_split,
    fromBucket_split (1/1000) (1/100) (by norm_num),
    fromBucket_split (1/100) (1/10) (by norm_num),
    fromBucket_split (1/10) 1 (by norm_num),
    fromBucket_split 1 10 (by norm_num),
    fromBucket_split 10 100 (by norm_num),
    fromBucket_split 100 1000 (by norm_num),
    fromBucket_split 1000 10000 (by norm_num),
    final_bucket_eq]


/-- C2: `count_pixels_by_order_of_magnitude` discards non-finite and negative
cells, counts exact zeros in the bucket labeled "0", counts each
strictly-positive value in the half-open labeled range containing it (the
final bucket "10000+" inclusive of 10000 and unbounded above), drops values
strictly between 0 and 0.001 into no bucket, and always returns all nine
labels (empty buckets with count 0). -/
theorem count_pixels_bucket_spec (data : Raster) :
    ((count_pixels_by_order_of_magnitude data).map Prod.fst = allLabels) ∧
    (count_pixels_by_order_of_magnitude data =
      ("0", (Raster.cells data).countP (fun v => decide (v = FVal.fin 0))) ::
        (ranges.drop 1).map (fun r =>
          (r.1, (Raster.cells data).countP (inBucket r.2.1 r.2.2)))) ∧
    (∀ q : ℚ, 0 < q → q < 1/1000 →
      sumCounts (count_pixels_by_order_of_magnitude [[FVal.fin q]]) = 0) := by
  refine ⟨?_, count_pixels_closed data, ?_⟩
  · rw [count_pixels_closed]
    simp [ranges, allLabels]
  · intro q h1 h2
    rw [sumCounts_eq]
    simp [Raster.cells, validCell, FVal.isFinite, FVal.nonneg, FVal.toQ,
      h1.ne', show ¬((1:ℚ)/1000 ≤ q) from by linarith, h1.le]
    linarith

/-- Witness for `count_pixels_bucket_spec` at a concrete raster and a
concrete gap value. -/
theorem count_pixels_bucket_spec_witness :
    sumCounts (count_pixels_by_order_of_magnitude [[FVal.fin (1/2000)]]) = 0 :=
  (count_pixels_bucket_spec [[FVal.fin (1/2000)]]).2.2 (1/2000) (by norm_num) (by norm_num)

/-- C7 counterexample: on the single-cell raster holding 1/2000 (finite,
non-negative, in the open gap (0, 0.001)) the bucket counts sum to 0 while
the raster has one finite non-negative cell. -/
theorem bucket_sum_cexample :
    sumCounts (count_pixels_by_order_of_magnitude [[FVal.fin (1/2000)]]) ≠
      (Raster.cells [[FVal.fin (1/2000)]]).countP validCell := by
  have hL : sumCounts (count_pixels_by_order_of_magnitude [[FVal.fin (1/2000)]]) = 0 := by
    rw [sumCounts_eq]
    simp [Raster.cells, validCell, FVal.isFinite, FVal.nonneg, FVal.toQ,
      show ((1:ℚ)/2000) ≠ 0 from by norm_num,
      show ¬((1:ℚ)/1000 ≤ 1/2000) from by norm_num,
      show (0:ℚ) ≤ 1/2000 from by norm_num]
    norm_num
  have hR : (Raster.cells [[FVal.fin (1/2000)]]).countP validCell = 1 := by
    simp [Raster.cells, validCell, FVal.isFinite, FVal.nonneg,
      show (0:ℚ) ≤ 1/2000 from by norm_num]
  rw [hL, hR]
  omega

/-- C7 as amended: the bucket counts sum to the number of finite,
non-negative cells that are exact zeros or at least 0.001 (cells in the open
gap (0, 0.001) are excluded along with negative and non-finite cells). -/
theorem bucket_sum_invariant (data : Raster) :
    sumCounts (count_pixels_by_order_of_magnitude data) =
      (Raster.cells data).countP
        (fun v => validCell v &&
          (decide (v.toQ = 0) || decide ((1:ℚ)/1000 ≤ v.toQ))) :=
  sumCounts_eq data


/-- C8 counterexample: the scenario's bucket assignments hold, but the total
number of classified (bucketed) values is 4, not 3 — the gap drops exactly
one of the five inputs and the zero is still classified in bucket "0". -/
theorem scenario_classify_cexample :
    ¬(((count_pixels_by_order_of_magnitude scenarioRaster).lookup "0" = some 1) ∧
      ((count_pixels_by_order_of_magnitude scenarioRaster).lookup "0.001-0.01" = some 1) ∧
      ((count_pixels_by_order_of_magnitude scenarioRaster).lookup "10-100" = some 1) ∧
      ((count_pixels_by_order_of_magnitude scenarioRaster).lookup "10000+" = some 1) ∧
      sumCounts (count_pixels_by_order_of_magnitude scenarioRaster) = 3) := by
  intro h
  have h4 : sumCounts (count_pixels_by_order_of_magnitude scenarioRaster) = 4 := by
    norm_num [count_pixels_by_order_of_magnitude, rangeCount, ranges, Raster.cells,
      validData, nonZeroData, scenarioRaster, validCell, List.filter, List.countP,
      List.countP.go, FVal.isFinite, FVal.nonneg, FVal.toQ, sumCounts]
  rw [h.2.2.2.2] at h4
  omega

/-- C8 as amended: classifying `[0, 0.0005, 0.005, 50, 50000]` yields "0"→1,
0.005→"0.001-0.01", 50→"10-100", 50000→"10000+", every other bucket count 0
(in particular 0.0005 falls in no bucket), and the total number of
classified values is 4. -/
theorem scenario_classify_amended :
    ((count_pixels_by_order_of_magnitude scenarioRaster).lookup "0" = some 1) ∧
    ((count_pixels_by_order_of_magnitude scenarioRaster).lookup "0.001-0.01" = some 1) ∧
    ((count_pixels_by_order_of_magnitude scenarioRaster).lookup "0.01-0.1" = some 0) ∧
    ((count_pixels_by_order_of_magnitude scenarioRaster).lookup "0.1-1" = some 0) ∧
    ((count_pixels_by_order_of_magnitude scenarioRaster).lookup "1-10" = some 0) ∧
    ((count_pixels_by_order_of_magnitude scenarioRaster).lookup "10-100" = some 1) ∧
    ((count_pixels_by_order_of_magnitude scenarioRaster).lookup "100-1000" = some 0) ∧
    ((count_pixels_by_order_of_magnitude scenarioRaster).lookup "1000-10000" = some 0) ∧
    ((count_pixels_by_order_of_magnitude scenarioRaster).lookup "10000+" = some 1) ∧
    sumCounts (count_pixels_by_order_of_magnitude scenarioRaster) = 4 := by
  refine ⟨?_, ?_, ?_, ?_, ?_, ?_, ?_, ?_, ?_, ?_⟩
  all_goals norm_num [count_pixels_by_order_of_magnitude, rangeCount, ranges, Raster.cells,
    validData, nonZeroData, scenarioRaster, validCell, List.filter, List.countP,
    List.countP.go, FVal.isFinite, FVal.nonneg, FVal.toQ, sumCounts, List.lookup]
  all_goals decide


theorem cleanVal_eq_fin (v : FVal) : cleanVal v = FVal.fin (cleanQ v) := by
  cases v with
  | nan => rfl
  | inf => rfl
  | ninf => rfl
  | fin q =>
      by_cases h : (0:ℚ) ≤ q <;>
        simp [cleanVal, cleanQ, validCell, FVal.isFinite, FVal.nonneg, FVal.toQ, h]

theorem cleanQ_nonneg (v : FVal) : 0 ≤ cleanQ v := by
  cases v with
  | nan => simp [cleanQ, validCell, FVal.isFinite]
  | inf => simp [cleanQ, validCell, FVal.isFinite]
  | ninf => simp [cleanQ, validCell, FVal.isFinite]
  | fin q =>
      by_cases h : (0:ℚ) ≤ q <;>
        simp [cleanQ, validCell, FVal.isFinite, FVal.nonneg, FVal.toQ, h]

theorem exists_of_mem_zipWith {α β γ : Type} {f : α → β → γ} {l₁ : List α}
    {l₂ : List β} {c : γ} (h : c ∈ List.zipWith f l₁ l₂) :
    ∃ a, a ∈ l₁ ∧ ∃ b, b ∈ l₂ ∧ c = f a b := by
  obtain ⟨i, hi, rfl⟩ := List.mem_iff_getElem.mp h
  rw [List.length_zipWith, lt_inf_iff] at hi
  exact ⟨l₁[i], List.getElem_mem hi.1, l₂[i], List.getElem_mem hi.2,
    (List.getElem_zipWith (h := by rw [List.length_zipWith, lt_inf_iff]; exact hi))⟩

theorem exposure_raster_eq (conc pop : Raster) :
    (compute_person_exposure_raster conc pop).1 =
      List.zipWith (List.zipWith FVal.mul)
        (conc.map (fun row => row.map cleanVal))
        (pop.map (fun row => row.map cleanVal)) := rfl

theorem exposure_cell_shape (conc pop : Raster) :
    ∀ v ∈ Raster.cells (compute_person_exposure_raster conc pop).1,
      ∃ a b, v = FVal.fin (cleanQ a * cleanQ b) := by
  intro v hv
  rw [exposure_raster_eq, Raster.cells, List.mem_flatten] at hv
  obtain ⟨row, hrow, hvrow⟩ := hv
  obtain ⟨rc, hrc, rp, hrp, rfl⟩ := exists_of_mem_zipWith hrow
  obtain ⟨r, hr, rfl⟩ := List.mem_map.mp hrc
  obtain ⟨p, hp, rfl⟩ := List.mem_map.mp hrp
  obtain ⟨a, ha, b, hb, rfl⟩ := exists_of_mem_zipWith hvrow
  obtain ⟨x, hx, rfl⟩ := List.mem_map.mp ha
  obtain ⟨y, hy, rfl⟩ := List.mem_map.mp hb
  exact ⟨x, y, by rw [cleanVal_eq_fin, cleanVal_eq_fin]; rfl⟩

/-- C1: with equal-shaped inputs, `compute_person_exposure_raster` replaces
every non-finite or negative cell of either source by zero independently
(`cleanQ`), returns the element-wise product of the cleaned inputs, and every
output cell is a finite non-negative value — so no NaN and no negative amount
reaches the output raster or its total.  Input rasters are not mutated: the
embedding is pure and the sources appear only to the right of `cleanQ`. -/
theorem compute_exposure_clean_product (conc pop : Raster)
    (hshape : List.Forall₂ (fun (r s : List FVal) => r.length = s.length) conc pop) :
    (∀ i j : ℕ, i < conc.length → j < (conc.getD i []).length →
      ((compute_person_exposure_raster conc pop).1.getD i []).getD j FVal.nan =
        FVal.fin (cleanQ ((conc.getD i []).getD j FVal.nan) *
          cleanQ ((pop.getD i []).getD j FVal.nan))) ∧
    (∀ v ∈ Raster.cells (compute_person_exposure_raster conc pop).1,
      v.isFinite = true ∧ 0 ≤ v.toQ) ∧
    0 ≤ listSum ((Raster.cells (compute_person_exposure_raster conc pop).1).map FVal.toQ) := by
  have hlen : conc.length = pop.length := hshape.length_eq
  have hcell : ∀ v ∈ Raster.cells (compute_person_exposure_raster conc pop).1,
      v.isFinite = true ∧ 0 ≤ v.toQ := by
    intro v hv
    obtain ⟨a, b, rfl⟩ := exposure_cell_shape conc pop v hv
    exact ⟨rfl, by simpa [FVal.toQ] using mul_nonneg (cleanQ_nonneg a) (cleanQ_nonneg b)⟩
  refine ⟨?_, hcell, ?_⟩
  · intro i j hi hj
    have hi' : i < pop.length := hlen ▸ hi
    have hj2 : j < (conc[i]).length := by
      rwa [List.getD_eq_getElem conc [] hi] at hj
    have hrl : (conc[i]).length = (pop[i]).length := by
      simpa [List.get_eq_getElem] using hshape.get hi hi'
    have hj2' : j < (pop[i]).length := hrl ▸ hj2
    have hElen : (List.zipWith (List.zipWith FVal.mul)
        (conc.map (fun row => row.map cleanVal))
        (pop.map (fun row => row.map cleanVal))).length = conc.length := by
      simp [List.length_zipWith, hlen]
    rw [exposure_raster_eq]
    rw [List.getD_eq_getElem _ [] (by rw [hElen]; exact hi)]
    rw [List.getElem_zipWith]
    simp only [List.getElem_map]
    have hrow_j : j < (List.zipWith FVal.mul ((conc[i]).map cleanVal)
        ((pop[i]).map cleanVal)).length := by
      rw [List.length_zipWith]
      simp only [List.length_map]
      exact lt_inf_iff.mpr ⟨hj2, hj2'⟩
    rw [List.getD_eq_getElem _ _ hrow_j]
    rw [List.getElem_zipWith]
    simp only [List.getElem_map]
    rw [List.getD_eq_getElem conc [] hi, List.getD_eq_getElem pop [] hi',
      List.getD_eq_getElem _ _ hj2, List.getD_eq_getElem _ _ hj2']
    rw [cleanVal_eq_fin, cleanVal_eq_fin]
    rfl
  · apply List.sum_nonneg
    intro x hx
    obtain ⟨v, hv, rfl⟩ := List.mem_map.mp hx
    exact (hcell v hv).2


theorem le_foldl_max (a : ℚ) (l : List ℚ) : a ≤ l.foldl Max.max a := by
  induction l generalizing a with
  | nil => exact le_refl a
  | cons b t ih => exact le_trans (le_max_left a b) (ih (Max.max a b))

theorem foldl_max_mem (a : ℚ) (l : List ℚ) :
    l.foldl Max.max a = a ∨ l.foldl Max.max a ∈ l := by
  induction l generalizing a with
  | nil => exact Or.inl rfl
  | cons b t ih =>
      rcases ih (Max.max a b) with h | h
      · rcases max_choice a b with hm | hm
        · exact Or.inl (by rw [List.foldl_cons, h, hm])
        · exact Or.inr (by rw [List.foldl_cons, h, hm]; exact List.mem_cons_self b t)
      · exact Or.inr (List.mem_cons_of_mem b h)

theorem mem_le_foldl_max (a x : ℚ) (l : List ℚ) (hx : x ∈ l) :
    x ≤ l.foldl Max.max a := by
  induction l generalizing a with
  | nil => cases hx
  | cons b t ih =>
      rcases List.mem_cons.mp hx with rfl | h
      · exact le_trans (le_max_right a x) (le_foldl_max _ t)
      · exact ih (Max.max a b) h

theorem listMax_mem (l : List ℚ) (h : l ≠ []) : listMax l ∈ l := by
  cases l with
  | nil => exact absurd rfl h
  | cons a t =>
      rcases foldl_max_mem a t with h1 | h1
      · rw [listMax, h1]; exact List.mem_cons_self a t
      · exact List.mem_cons_of_mem a h1

theorem le_listMax (l : List ℚ) (x : ℚ) (hx : x ∈ l) : x ≤ listMax l := by
  cases l with
  | nil => cases hx
  | cons a t =>
      rcases List.mem_cons.mp hx with rfl | h
      · exact le_foldl_max x t
      · exact mem_le_foldl_max a x t h

theorem foldl_min_le (a : ℚ) (l : List ℚ) : l.foldl Min.min a ≤ a := by
  induction l generalizing a with
  | nil => exact le_refl a
  | cons b t ih => exact le_trans (ih (Min.min a b)) (min_le_left a b)

theorem foldl_min_mem (a : ℚ) (l : List ℚ) :
    l.foldl Min.min a = a ∨ l.foldl Min.min a ∈ l := by
  induction l generalizing a with
  | nil => exact Or.inl rfl
  | cons b t ih =>
      rcases ih (Min.min a b) with h | h
      · rcases min_choice a b with hm | hm
        · exact Or.inl (by rw [List.foldl_cons, h, hm])
        · exact Or.inr (by rw [List.foldl_cons, h, hm]; exact List.mem_cons_self b t)
      · exact Or.inr (List.mem_cons_of_mem b h)

theorem foldl_min_le_mem (a x : ℚ) (l : List ℚ) (hx : x ∈ l) :
    l.foldl Min.min a ≤ x := by
  induction l generalizing a with
  | nil => cases hx
  | cons b t ih =>
      rcases List.mem_cons.mp hx with rfl | h
      · exact le_trans (foldl_min_le _ t) (min_le_right a x)
      · exact ih (Min.min a b) h

theorem listMin_mem (l : List ℚ) (h : l ≠ []) : listMin l ∈ l := by
  cases l with
  | nil => exact absurd rfl h
  | cons a t =>
      rcases foldl_min_mem a t with h1 | h1
      · rw [listMin, h1]; exact List.mem_cons_self a t
      · exact List.mem_cons_of_mem a h1

theorem listMin_le (l : List ℚ) (x : ℚ) (hx : x ∈ l) : listMin l ≤ x := by
  cases l with
  | nil => cases hx
  | cons a t =>
      rcases List.mem_cons.mp hx with rfl | h
      · exact foldl_min_le x t
      · exact foldl_min_le_mem a x t h

theorem listVariance_nonneg (l : List ℚ) : 0 ≤ listVariance l := by
  unfold listVariance
  apply div_nonneg
  · apply List.sum_nonneg
    intro x hx
    obtain ⟨y, hy, rfl⟩ := List.mem_map.mp hx
    exact sq_nonneg _
  · exact Nat.cast_nonneg _

theorem exposure_snd_eq (conc pop : Raster) :
    (compute_person_exposure_raster conc pop).2 =
      (if (exposureQ conc pop).isEmpty then none else
        some
          { total_person_exposure := listSum (exposureQ conc pop)
            mean_person_exposure := listMean (exposureQ conc pop)
            max_person_exposure := listMax (exposureQ conc pop)
            min_person_exposure := listMin (exposureQ conc pop)
            std_person_exposure := listStd (exposureQ conc pop)
            non_zero_pixels :=
              ((exposureQ conc pop).filter (fun q => decide (0 < q))).length
            non_zero_mean :=
              if ((exposureQ conc pop).filter (fun q => decide (0 < q))).length > 0 then
                listMean ((exposureQ conc pop).filter (fun q => decide (0 < q)))
              else 0 }) := rfl


/-- C5: on a non-empty exposure raster the statistics record is produced
(no empty-reduction or divide-by-zero failure): total is the sum over all
cells, mean is total over the cell count, max/min are attained bounds over
all cells, std is the square root of the population variance over all cells,
non_zero_pixels counts the strictly-positive cells, and non_zero_mean is the
mean of the strictly-positive cells, exactly 0 when there are none. -/
theorem exposure_stats_spec (conc pop : Raster)
    (hne : exposureQ conc pop ≠ []) :
    ∃ s, (compute_person_exposure_raster conc pop).2 = some s ∧
      s.total_person_exposure = (exposureQ conc pop).sum ∧
      s.mean_person_exposure * ((exposureQ conc pop).length : ℚ) =
        (exposureQ conc pop).sum ∧
      (s.max_person_exposure ∈ exposureQ conc pop ∧
        ∀ x ∈ exposureQ conc pop, x ≤ s.max_person_exposure) ∧
      (s.min_person_exposure ∈ exposureQ conc pop ∧
        ∀ x ∈ exposureQ conc pop, s.min_person_exposure ≤ x) ∧
      (0 ≤ s.std_person_exposure ∧
        s.std_person_exposure ^ 2 =
          ((((exposureQ conc pop).map
              (fun x => (x - listMean (exposureQ conc pop)) ^ 2)).sum /
            ((exposureQ conc pop).length : ℚ) : ℚ) : ℝ)) ∧
      s.non_zero_pixels = (exposureQ conc pop).countP (fun q => decide (0 < q)) ∧
      s.non_zero_mean * (s.non_zero_pixels : ℚ) =
        ((exposureQ conc pop).filter (fun q => decide (0 < q))).sum ∧
      ((exposureQ conc pop).countP (fun q => decide (0 < q)) = 0 →
        s.non_zero_mean = 0) := by
  have hQlen : ((exposureQ conc pop).length : ℚ) ≠ 0 :=
    Nat.cast_ne_zero.mpr (Nat.pos_iff_ne_zero.mp (List.length_pos.mpr hne))
  rw [exposure_snd_eq]
  rw [if_neg (by simpa using hne)]
  refine ⟨_, rfl, rfl, ?_, ?_, ?_, ?_, ?_, ?_, ?_⟩
  · exact div_mul_cancel₀ _ hQlen
  · exact ⟨listMax_mem _ hne, fun x hx => le_listMax _ x hx⟩
  · exact ⟨listMin_mem _ hne, fun x hx => listMin_le _ x hx⟩
  · refine ⟨Real.sqrt_nonneg _, ?_⟩
    rw [listStd, Real.sq_sqrt (by exact_mod_cast listVariance_nonneg _)]
    rfl
  · exact (List.countP_eq_length_filter _ _).symm
  · dsimp only
    by_cases hp : ((exposureQ conc pop).filter (fun q => decide (0 < q))).length > 0
    · rw [if_pos hp]
      rw [listMean, div_mul_cancel₀]
      exact Nat.cast_ne_zero.mpr (Nat.pos_iff_ne_zero.mp hp)
    · rw [if_neg hp]
      have h0 : ((exposureQ conc pop).filter (fun q => decide (0 < q))) = [] :=
        List.length_eq_zero.mp (by omega)
      rw [h0]
      simp
  · intro hcount
    rw [List.countP_eq_length_filter] at hcount
    dsimp only
    rw [if_neg (by omega)]


/-- Witness for `compute_exposure_clean_product`: a pair with a NaN cell and
a negative cell; the negative concentration cell is cleaned to zero, so the
output cell is `0` rather than a negative product. -/
theorem compute_exposure_clean_product_witness :
    ((compute_person_exposure_raster
        [[FVal.fin 10, FVal.nan], [FVal.fin (-3), FVal.fin 5]]
        [[FVal.fin 2, FVal.fin 3], [FVal.fin 4, FVal.inf]]).1.getD 1 []).getD 0 FVal.nan =
      FVal.fin 0 := by
  have h := (compute_exposure_clean_product
      [[FVal.fin 10, FVal.nan], [FVal.fin (-3), FVal.fin 5]]
      [[FVal.fin 2, FVal.fin 3], [FVal.fin 4, FVal.inf]]
      (List.Forall₂.cons rfl (List.Forall₂.cons rfl List.Forall₂.nil))).1 1 0
      (by norm_num) (by simp [List.getD])
  rw [h]
  norm_num [cleanQ, validCell, FVal.isFinite, FVal.nonneg, FVal.toQ, List.getD]

/-- Witness for `exposure_stats_spec` at the spec's scenario pair: the
statistics record is produced. -/
theorem exposure_stats_spec_witness :
    (compute_person_exposure_raster [[FVal.fin 10, FVal.fin 0], [FVal.fin 0, FVal.fin 5]]
      [[FVal.fin 2, FVal.fin 3], [FVal.fin 4, FVal.fin 0]]).2 ≠ none := by
  obtain ⟨s, hs, _⟩ := exposure_stats_spec
    [[FVal.fin 10, FVal.fin 0], [FVal.fin 0, FVal.fin 5]]
    [[FVal.fin 2, FVal.fin 3], [FVal.fin 4, FVal.fin 0]]
    (by simp [exposureQ, exposure_raster_eq, Raster.cells, List.zipWith])
  simp [hs]


/-- C4: a raster pair whose geotransform or shape differs is rejected with
`AlignmentError`.  The exposure arithmetic lives only in the aligned branch
of `process_asset_pair`, so a mismatched pair is never processed or coerced:
the pipeline returns the error instead of any computed result. -/
theorem process_asset_pair_alignment (conc pop : GeoRaster)
    (h : conc.transform ≠ pop.transform ∨
      Raster.shape conc.data ≠ Raster.shape pop.data) :
    process_asset_pair conc pop = Except.error PipelineError.alignmentError := by
  rw [process_asset_pair, if_neg]
  tauto

/-- Witness for `process_asset_pair_alignment`: same geotransform, different
shapes (1×1 vs 2×1). -/
theorem process_asset_pair_alignment_witness :
    process_asset_pair
      { transform := ⟨0, 1, 0, 0, 0, 1⟩, data := [[FVal.fin 1]] }
      { transform := ⟨0, 1, 0, 0, 0, 1⟩, data := [[FVal.fin 1], [FVal.fin 2]] } =
      Except.error PipelineError.alignmentError :=
  process_asset_pair_alignment _ _ (Or.inr (by decide))

theorem countLeadingZero_le (t : ℚ) : ∀ (l : List (List ℚ)),
    countLeadingZero t l ≤ l.length := by
  intro l
  induction l with
  | nil => exact le_refl 0
  | cons r rs ih =>
      simp only [countLeadingZero]
      by_cases hz : rowIsZero t r
      · rw [if_pos hz]
        simpa using ih
      · rw [if_neg hz]
        exact Nat.zero_le _

theorem countLeadingZero_spec (t : ℚ) : ∀ (l : List (List ℚ)),
    (∀ i, i < countLeadingZero t l → rowIsZero t (l.getD i []) = true) ∧
    (countLeadingZero t l = l.length ∨
      rowIsZero t (l.getD (countLeadingZero t l) []) = false) := by
  intro l
  induction l with
  | nil => exact ⟨fun i hi => absurd hi (Nat.not_lt_zero i), Or.inl rfl⟩
  | cons r rs ih =>
      by_cases hz : rowIsZero t r
      · simp only [countLeadingZero, if_pos hz]
        constructor
        · intro i hi
          cases i with
          | zero => simpa [List.getD] using hz
          | succ k => simpa [List.getD] using ih.1 k (by omega)
        · rcases ih.2 with h | h
          · exact Or.inl (by simp [h])
          · exact Or.inr (by simpa [List.getD] using h)
      · simp only [countLeadingZero, if_neg hz]
        exact ⟨fun i hi => absurd hi (Nat.not_lt_zero i),
          Or.inr (by simpa [List.getD] using eq_false_of_ne_true hz)⟩


/-- C3: each edge count of `detect_edge_patterns` is the number of
consecutive all-≤-threshold rows (resp. columns) from that edge, stopping at
the first row/column with a cell above the threshold; each stripe flag holds
exactly when its count strictly exceeds `max(10, 0.01·min(rows, cols))`; and
`suspicious_patterns` is the OR of the four stripe flags (the detector being
called at its default threshold 0). -/
theorem detect_edge_patterns_spec (data : List (List ℚ)) (t : ℚ) :
    ((∀ i, i < (detect_edge_patterns data t).top_zero_rows →
        rowIsZero t (data.getD i []) = true) ∧
      ((detect_edge_patterns data t).top_zero_rows = data.length ∨
        rowIsZero t (data.getD ((detect_edge_patterns data t).top_zero_rows) []) =
          false)) ∧
    ((∀ i, i < (detect_edge_patterns data t).bottom_zero_rows →
        rowIsZero t (data.reverse.getD i []) = true) ∧
      ((detect_edge_patterns data t).bottom_zero_rows = data.reverse.length ∨
        rowIsZero t
            (data.reverse.getD ((detect_edge_patterns data t).bottom_zero_rows) []) =
          false)) ∧
    ((∀ i, i < (detect_edge_patterns data t).left_zero_cols →
        rowIsZero t ((columnsOf data).getD i []) = true) ∧
      ((detect_edge_patterns data t).left_zero_cols = (columnsOf data).length ∨
        rowIsZero t
            ((columnsOf data).getD ((detect_edge_patterns data t).left_zero_cols) []) =
          false)) ∧
    ((∀ i, i < (detect_edge_patterns data t).right_zero_cols →
        rowIsZero t ((columnsOf data).reverse.getD i []) = true) ∧
      ((detect_edge_patterns data t).right_zero_cols =
          (columnsOf data).reverse.length ∨
        rowIsZero t
            ((columnsOf data).reverse.getD
              ((detect_edge_patterns data t).right_zero_cols) []) =
          false)) ∧
    ((detect_edge_patterns data t).top_zero_stripe = true ↔
      max 10 ((min data.length (data.getD 0 []).length : ℚ) * (1 / 100)) <
        ((detect_edge_patterns data t).top_zero_rows : ℚ)) ∧
    ((detect_edge_patterns data t).bottom_zero_stripe = true ↔
      max 10 ((min data.length (data.getD 0 []).length : ℚ) * (1 / 100)) <
        ((detect_edge_patterns data t).bottom_zero_rows : ℚ)) ∧
    ((detect_edge_patterns data t).left_zero_stripe = true ↔
      max 10 ((min data.length (data.getD 0 []).length : ℚ) * (1 / 100)) <
        ((detect_edge_patterns data t).left_zero_cols : ℚ)) ∧
    ((detect_edge_patterns data t).right_zero_stripe = true ↔
      max 10 ((min data.length (data.getD 0 []).length : ℚ) * (1 / 100)) <
        ((detect_edge_patterns data t).right_zero_cols : ℚ)) ∧
    (suspicious_patterns data = true ↔
      ((detect_edge_patterns data 0).top_zero_stripe = true ∨
       (detect_edge_patterns data 0).bottom_zero_stripe = true ∨
       (detect_edge_patterns data 0).left_zero_stripe = true ∨
       (detect_edge_patterns data 0).right_zero_stripe = true)) := by
  refine ⟨countLeadingZero_spec t data, countLeadingZero_spec t data.reverse,
    countLeadingZero_spec t (columnsOf data),
    countLeadingZero_spec t (columnsOf data).reverse,
    ?_, ?_, ?_, ?_, ?_⟩
  · simp [detect_edge_patterns]
  · simp [detect_edge_patterns]
  · simp [detect_edge_patterns]
  · simp [detect_edge_patterns]
  · simp only [suspicious_patterns, Bool.or_eq_true]
    tauto


/-- Witness for `detect_edge_patterns_spec`: the stop condition at a concrete
one-cell positive raster. -/
theorem detect_edge_patterns_spec_witness :
    (detect_edge_patterns [[(1:ℚ)]] 0).top_zero_rows = [[(1:ℚ)]].length ∨
      rowIsZero 0
          ([[(1:ℚ)]].getD ((detect_edge_patterns [[(1:ℚ)]] 0).top_zero_rows) []) =
        false :=
  (detect_edge_patterns_spec [[(1:ℚ)]] 0).1.2

theorem rowIsZero_false_of_mem {t x : ℚ} {row : List ℚ} (hx : x ∈ row)
    (htx : t < x) : rowIsZero t row = false := by
  rw [rowIsZero, List.all_eq_false]
  exact ⟨x, hx, by simp [not_le.mpr htx]⟩

theorem columnsOf_getD (data : List (List ℚ)) (j : ℕ)
    (hj : j < (data.getD 0 []).length) :
    (columnsOf data).getD j [] = data.map (fun row => row.getD j 0) := by
  rw [columnsOf, List.getD_eq_getElem _ [] (by simpa using hj)]
  rw [List.getElem_map]
  rw [List.getElem_range]

theorem columnsOf_length (data : List (List ℚ)) :
    (columnsOf data).length = (data.getD 0 []).length := by
  simp [columnsOf]

/-- C10: each edge count is at most the corresponding dimension, and when
some cell strictly exceeds the threshold the two row counts (resp. column
counts) from opposite edges leave at least that cell's row (resp. column)
uncounted, so they sum to at most dimension − 1. -/
theorem edge_counts_invariant (data : List (List ℚ)) (t : ℚ)
    (hrect : rectangular data) :
    ((detect_edge_patterns data t).top_zero_rows ≤ data.length ∧
     (detect_edge_patterns data t).bottom_zero_rows ≤ data.length ∧
     (detect_edge_patterns data t).left_zero_cols ≤ (data.getD 0 []).length ∧
     (detect_edge_patterns data t).right_zero_cols ≤ (data.getD 0 []).length) ∧
    ((∃ row ∈ data, ∃ x ∈ row, t < x) →
      (detect_edge_patterns data t).top_zero_rows +
          (detect_edge_patterns data t).bottom_zero_rows ≤ data.length - 1 ∧
      (detect_edge_patterns data t).left_zero_cols +
          (detect_edge_patterns data t).right_zero_cols ≤
        (data.getD 0 []).length - 1) := by
  constructor
  · refine ⟨countLeadingZero_le t data, ?_, ?_, ?_⟩
    · simpa using countLeadingZero_le t data.reverse
    · simpa [columnsOf_length] using countLeadingZero_le t (columnsOf data)
    · simpa [columnsOf_length] using countLeadingZero_le t (columnsOf data).reverse
  · rintro ⟨row, hrow, x, hx, htx⟩
    obtain ⟨k, hk, hkr⟩ := List.mem_iff_getElem.mp hrow
    obtain ⟨j, hj, hjx⟩ := List.mem_iff_getElem.mp hx
    have hrz : rowIsZero t row = false := rowIsZero_false_of_mem hx htx
    have hjcols : j < (data.getD 0 []).length := by
      rw [← hrect row hrow]
      exact hj
    have htop : (detect_edge_patterns data t).top_zero_rows ≤ k := by
      by_contra hlt
      push_neg at hlt
      have h1 := (countLeadingZero_spec t data).1 k hlt
      rw [List.getD_eq_getElem data [] hk, hkr, hrz] at h1
      cases h1
    have hbot : (detect_edge_patterns data t).bottom_zero_rows ≤
        data.length - 1 - k := by
      by_contra hlt
      push_neg at hlt
      have h1 := (countLeadingZero_spec t data.reverse).1 (data.length - 1 - k) hlt
      have hidx : data.length - 1 - (data.length - 1 - k) = k := by omega
      rw [List.getD_eq_getElem _ [] (by rw [List.length_reverse]; omega),
        List.getElem_reverse] at h1
      simp only [hidx] at h1
      rw [hkr, hrz] at h1
      cases h1
    have hleft : (detect_edge_patterns data t).left_zero_cols ≤ j := by
      by_contra hlt
      push_neg at hlt
      have h1 := (countLeadingZero_spec t (columnsOf data)).1 j hlt
      rw [columnsOf_getD data j hjcols] at h1
      have hxmem : x ∈ data.map (fun r => r.getD j 0) :=
        List.mem_map.mpr ⟨row, hrow, by rw [List.getD_eq_getElem row 0 hj, hjx]⟩
      rw [rowIsZero_false_of_mem hxmem htx] at h1
      cases h1
    have hright : (detect_edge_patterns data t).right_zero_cols ≤
        (data.getD 0 []).length - 1 - j := by
      by_contra hlt
      push_neg at hlt
      have h1 := (countLeadingZero_spec t (columnsOf data).reverse).1
        ((data.getD 0 []).length - 1 - j) hlt
      have hidx2 : (columnsOf data).length - 1 -
          ((data.getD 0 []).length - 1 - j) = j := by
        rw [columnsOf_length]
        omega
      rw [List.getD_eq_getElem _ []
          (by rw [List.length_reverse, columnsOf_length]; omega),
        List.getElem_reverse] at h1
      simp only [hidx2] at h1
      have hjc2 : j < (columnsOf data).length := by rw [columnsOf_length]; omega
      rw [show (columnsOf data)[j] = (columnsOf data).getD j [] from
          (List.getD_eq_getElem _ [] (by rw [columnsOf_length]; omega)).symm,
        columnsOf_getD data j hjcols] at h1
      have hxmem : x ∈ data.map (fun r => r.getD j 0) :=
        List.mem_map.mpr ⟨row, hrow, by rw [List.getD_eq_getElem row 0 hj, hjx]⟩
      rw [rowIsZero_false_of_mem hxmem htx] at h1
      cases h1
    exact ⟨by omega, by omega⟩


/-- Witness for `edge_counts_invariant` on a 2×2 grid with one positive cell. -/
theorem edge_counts_invariant_witness :
    (detect_edge_patterns [[0, 5], [0, 0]] 0).top_zero_rows +
        (detect_edge_patterns [[0, 5], [0, 0]] 0).bottom_zero_rows ≤ 1 ∧
      (detect_edge_patterns [[0, 5], [0, 0]] 0).left_zero_cols +
        (detect_edge_patterns [[0, 5], [0, 0]] 0).right_zero_cols ≤ 1 :=
  (edge_counts_invariant [[0, 5], [0, 0]] 0
      (by
        intro r hr
        rcases List.mem_cons.mp hr with rfl | hr2
        · rfl
        · rcases List.mem_cons.mp hr2 with rfl | hr3
          · rfl
          · cases hr3)).2
    ⟨[0, 5], by simp, 5, by simp, by norm_num⟩


/-- C9: with zero records, or records none of which carries a
`person_exposure_stats` entry, the aggregator returns the empty summary `{}`
(modelled `none`) instead of propagating an exception. -/
theorem distribution_stats_empty (assets : List AssetRecord)
    (h : ∀ a ∈ assets, a = none) :
    calculate_exposure_distribution_stats assets = none := by
  have hmax : maxExposures assets = [] := by
    rw [maxExposures, List.filterMap_eq_nil_iff]
    intro a ha
    rw [h a ha]
    rfl
  rw [calculate_exposure_distribution_stats, if_pos (by simp [hmax])]

/-- Witness for `distribution_stats_empty`: two records without stats. -/
theorem distribution_stats_empty_witness :
    calculate_exposure_distribution_stats [none, none] = none :=
  distribution_stats_empty [none, none] (by simp)

theorem log_list_prod (l : List ℚ) (hpos : ∀ x ∈ l, (0:ℚ) < x) :
    Real.log ((l.map (fun (q : ℚ) => (q : ℝ))).prod) =
      (l.map (fun (q : ℚ) => Real.log (q : ℝ))).sum := by
  induction l with
  | nil => simp
  | cons a t ih =>
      have ha : (0:ℚ) < a := hpos a (List.mem_cons_self a t)
      have ht : ∀ x ∈ t, (0:ℚ) < x := fun x hx => hpos x (List.mem_cons_of_mem _ hx)
      have htprod : (0:ℝ) < (t.map (fun (q : ℚ) => (q : ℝ))).prod := by
        apply List.prod_pos
        intro x hx
        obtain ⟨y, hy, rfl⟩ := List.mem_map.mp hx
        exact_mod_cast ht y hy
      simp only [List.map_cons, List.prod_cons, List.sum_cons]
      rw [Real.log_mul (by exact_mod_cast ha.ne') (ne_of_gt htprod), ih ht]

theorem exp_logMean_eq_rpow (l : List ℚ) (hpos : ∀ x ∈ l, (0:ℚ) < x)
    (hne : l ≠ []) :
    Real.exp (logMean l) =
      ((l.map (fun (q : ℚ) => (q : ℝ))).prod) ^ ((1 : ℝ) / l.length) := by
  have hprodpos : (0:ℝ) < (l.map (fun (q : ℚ) => (q : ℝ))).prod := by
    apply List.prod_pos
    intro x hx
    obtain ⟨y, hy, rfl⟩ := List.mem_map.mp hx
    exact_mod_cast hpos y hy
  rw [Real.rpow_def_of_pos hprodpos, log_list_prod l hpos, logMean]
  rw [mul_one_div]

/-- C6: over a collection with at least one extracted record, each of the two
rollups computes its geometric mean over the strictly-positive values only:
it is exactly 0 when no positive value exists, and otherwise equals the n-th
root of the product of the positive values (the value of `exp(mean(log v))`),
so `log` is never taken at zero and no NaN is produced. -/
theorem distribution_geometric_mean_spec (assets : List AssetRecord)
    (hne : maxExposures assets ≠ []) :
    ∃ ms ts, calculate_exposure_distribution_stats assets = some (ms, ts) ∧
      (((maxExposures assets).filter (fun q => decide (0 < q))) = [] →
        ms.geometric_mean = 0) ∧
      (((maxExposures assets).filter (fun q => decide (0 < q))) ≠ [] →
        ms.geometric_mean =
          ((((maxExposures assets).filter (fun q => decide (0 < q))).map
              (fun (q : ℚ) => (q : ℝ))).prod) ^
            ((1 : ℝ) /
              ((maxExposures assets).filter (fun q => decide (0 < q))).length)) ∧
      (((totalExposures assets).filter (fun q => decide (0 < q))) = [] →
        ts.geometric_mean = 0) ∧
      (((totalExposures assets).filter (fun q => decide (0 < q))) ≠ [] →
        ts.geometric_mean =
          ((((totalExposures assets).filter (fun q => decide (0 < q))).map
              (fun (q : ℚ) => (q : ℝ))).prod) ^
            ((1 : ℝ) /
              ((totalExposures assets).filter (fun q => decide (0 < q))).length)) := by
  rw [calculate_exposure_distribution_stats, if_neg (by simp [hne])]
  refine ⟨_, _, rfl, ?_, ?_, ?_, ?_⟩
  · intro h
    dsimp only
    rw [if_pos (by simp [h])]
  · intro h
    dsimp only
    rw [if_neg (by simp [h])]
    exact exp_logMean_eq_rpow _
      (fun x hx => by simpa using (List.of_mem_filter hx)) h
  · intro h
    dsimp only
    rw [if_pos (by simp [h])]
  · intro h
    dsimp only
    rw [if_neg (by simp [h])]
    exact exp_logMean_eq_rpow _
      (fun x hx => by simpa using (List.of_mem_filter hx)) h

/-- Witness for `distribution_geometric_mean_spec`: one record with stats. -/
theorem distribution_geometric_mean_spec_witness :
    calculate_exposure_distribution_stats [some (2, 3)] ≠ none := by
  obtain ⟨ms, ts, h, _⟩ := distribution_geometric_mean_spec [some (2, 3)]
    (by simp [maxExposures])
  simp [h]

end PollutionViz
